import Mathlib

/-!
Verification of the trend-following signal engine of this repository.

The definitions below are a shallow embedding of the Python sources:

- `SuperTrendIndicator` and its methods mirror
  src/supertrend-btc/Library/technical_indicators/supertrend.py
  (an identical copy of the trading-relevant logic lives in
  src/backtest-results/supertrend-btc/code/main.py, lines 569-671).
- `StratState` and the functions on it mirror the
  BitcoinSupertrendStrategy controller methods of
  src/backtest-results/supertrend-btc/code/main.py.

Floating-point values of the source are modelled as rational numbers: every
arithmetic operation the claims touch (addition, subtraction, multiplication,
division, absolute value, minimum, comparison) is exact in the rationals.
Python `None` becomes `Option.none`; the timestamps compared by the controller
are modelled in minutes as rationals, and calendar day keys as naturals
(the source compares zero-padded ISO date strings, whose lexicographic order
agrees with chronological order).
-/

/-- Arithmetic mean of a list of rationals, mirroring `np.mean(list(...))`. -/
def listMean (l : List ℚ) : ℚ := l.sum / l.length

/-- Appending to a `deque(maxlen=p)`: the new element goes on the right and,
if the length would exceed `p`, the oldest (leftmost) element is dropped. -/
def dequeAppend (p : ℕ) (l : List ℚ) (x : ℚ) : List ℚ :=
  let l2 := l ++ [x]
  if p < l2.length then l2.drop (l2.length - p) else l2

/-- State of the `SuperTrendIndicator` class (constructor lines 34-64 of the
library file).  The source keeps `final_upper_band` and `final_lower_band` in
two fields that are `None` together exactly until the first `update` call and
are always written together (lines 143-155); we model the pair jointly as one
`Option`.  The write-only `returns_history` buffer is never read by any method
and is omitted. -/
structure SuperTrendIndicator where
  period : ℕ
  multiplier : ℚ
  atr_values : List ℚ
  prev_atr : Option ℚ
  final_bands : Option (ℚ × ℚ)
  supertrend : Option ℚ
  signal : ℤ
  prev_signal : ℤ
  is_ready : Bool
  bar_count : ℕ
  prev_close : Option ℚ
deriving Repr, DecidableEq

/-- `SuperTrendIndicator.__init__(period, multiplier)`. -/
def SuperTrendIndicator.init (period : ℕ) (multiplier : ℚ) : SuperTrendIndicator :=
  { period := period
    multiplier := multiplier
    atr_values := []
    prev_atr := none
    final_bands := none
    supertrend := none
    signal := 0
    prev_signal := 0
    is_ready := false
    bar_count := 0
    prev_close := none }

/-- `calculate_true_range(high, low, prev_close)` (library lines 66-90). -/
def calculate_true_range (high low : ℚ) (prev_close : Option ℚ) : ℚ :=
  match prev_close with
  | none => high - low
  | some pc => max (high - low) (max |high - pc| |low - pc|)

/-- `calculate_atr(tr)` (library lines 92-117): append `tr` to the bounded
deque; while fewer than `period` values have been seen return their plain
mean; otherwise apply Wilder smoothing, seeding `_prev_atr` with the mean of
the deque the first time this branch runs.  Returns the ATR value together
with the mutated state. -/
def SuperTrendIndicator.calculate_atr (s : SuperTrendIndicator) (tr : ℚ) :
    ℚ × SuperTrendIndicator :=
  let vals := dequeAppend s.period s.atr_values tr
  if vals.length < s.period then
    (listMean vals, { s with atr_values := vals })
  else
    let prev := s.prev_atr.getD (listMean vals)
    let current := (prev * ((s.period : ℚ) - 1) + tr) / (s.period : ℚ)
    (current, { s with atr_values := vals, prev_atr := some current })

/-- `update(high, low, close)` (library lines 119-178): the per-bar step of
the indicator.  Returns the mutated state together with the returned pair
`(self.supertrend, self.signal)`. -/
def SuperTrendIndicator.update (s : SuperTrendIndicator) (high low close : ℚ) :
    SuperTrendIndicator × (Option ℚ × ℤ) :=
  let bar_count := s.bar_count + 1
  let tr := calculate_true_range high low s.prev_close
  let atrRes := s.calculate_atr tr
  let atr := atrRes.1
  let s1 := atrRes.2
  let hl_midpoint := (high + low) / 2
  let basic_upper := hl_midpoint + s.multiplier * atr
  let basic_lower := hl_midpoint - s.multiplier * atr
  let bands :=
    match s.final_bands with
    | none => (basic_upper, basic_lower)
    | some ul =>
        (if basic_upper < ul.1 ∨ close > ul.1 then basic_upper else ul.1,
         if basic_lower > ul.2 ∨ close < ul.2 then basic_lower else ul.2)
  let st := if close ≤ bands.1 then bands.1 else bands.2
  let sg : ℤ := if close ≤ bands.1 then -1 else 1
  let rdy := if bar_count ≥ s.period * 2 then true else s.is_ready
  ({ s1 with
      bar_count := bar_count
      final_bands := some bands
      prev_signal := s.signal
      supertrend := some st
      signal := sg
      is_ready := rdy
      prev_close := some close },
   (some st, sg))

/-- `get_current_supertrend()` (library lines 180-187). -/
def SuperTrendIndicator.get_current_supertrend (s : SuperTrendIndicator) : Option ℚ :=
  if s.is_ready then s.supertrend else none

/-- `get_current_signal()` (library lines 189-196). -/
def SuperTrendIndicator.get_current_signal (s : SuperTrendIndicator) : ℤ :=
  if s.is_ready then s.signal else 0

/-- `is_buy_signal()` (library lines 198-205). -/
def SuperTrendIndicator.is_buy_signal (s : SuperTrendIndicator) : Bool :=
  s.signal == 1 && s.prev_signal == -1 && s.is_ready

/-- `is_sell_signal()` (library lines 207-214). -/
def SuperTrendIndicator.is_sell_signal (s : SuperTrendIndicator) : Bool :=
  s.signal == -1 && s.prev_signal == 1 && s.is_ready

/-- State of iterating `calculate_atr` over a sequence of True-Range values,
starting from a fresh indicator: `atrStateAfter p trs k` is the indicator
state after the first `k` observations (the multiplier is irrelevant to the
ATR fields). -/
def atrStateAfter (p : ℕ) (trs : List ℚ) : ℕ → SuperTrendIndicator
  | 0 => SuperTrendIndicator.init p 3
  | k + 1 => ((atrStateAfter p trs k).calculate_atr (trs.getD k 0)).2

/-- ATR value produced by observation number `k + 1` (zero-indexed `k`). -/
def atrOut (p : ℕ) (trs : List ℚ) (k : ℕ) : ℚ :=
  ((atrStateAfter p trs k).calculate_atr (trs.getD k 0)).1

/-- Python truthiness of an optional float: `None` and `0.0` are falsy. -/
def pyTruthy (o : Option ℚ) : Bool :=
  match o with
  | none => false
  | some x => x != 0

/-- Mutable per-instance state of `BitcoinSupertrendStrategy` that the
claimed controller methods read or write (initialize lines 48-51 and 73-91).
Fields that only the unclaimed reporting paths touch (win/loss counters,
equity curve, pnl accumulators) are omitted; none of the functions below
reads them. -/
structure StratState where
  daily_trade_count : ℕ
  last_trade_time : Option ℚ
  total_trades : ℕ
  position_size : ℚ
  entry_price : Option ℚ
  stop_loss_level : Option ℚ
  position_entry_time : Option ℚ
  risk_per_trade : ℚ
  max_position_size : ℚ
  pause_trading_until : Option ℚ
deriving Repr, DecidableEq

/-- The controller state right after `initialize` with the default
parameters (risk 0.02, max allocation 0.10). -/
def initStrat : StratState :=
  { daily_trade_count := 0
    last_trade_time := none
    total_trades := 0
    position_size := 0
    entry_price := none
    stop_loss_level := none
    position_entry_time := none
    risk_per_trade := 2 / 100
    max_position_size := 1 / 10
    pause_trading_until := none }

/-- `calculate_position_size(entry_price, stop_price, account_equity)`
(main.py lines 292-322).  The source reads `self.risk_per_trade` and
`self.max_position_size`; they are passed here as the first two explicit
arguments.  The $100 minimum-position floor is the hardcoded
`min_position_usd = 100` of line 312. -/
def calculate_position_size (risk_per_trade max_position_size : ℚ)
    (entry_price stop_price account_equity : ℚ) : ℚ :=
  if entry_price ≤ 0 ∨ stop_price ≤ 0 then 0
  else
    let risk_amount := account_equity * risk_per_trade
    let price_risk_per_unit := |entry_price - stop_price|
    let price_risk_floored :=
      if price_risk_per_unit < entry_price * (1 / 100) then entry_price * (1 / 100)
      else price_risk_per_unit
    let calculated_size := risk_amount / price_risk_floored
    let max_size_by_allocation := account_equity * max_position_size / entry_price
    let final_position_size := min calculated_size max_size_by_allocation
    let min_quantity := (100 : ℚ) / entry_price
    if final_position_size < min_quantity then min_quantity else final_position_size

/-- `_handle_buy_signal(current_price, current_time)` (main.py lines
324-370).  External collaborators are passed as arguments: the portfolio
holdings read on line 328, the indicator level from
`get_current_supertrend()` on line 334, the account equity read on line 343,
whether `market_order` returned a truthy ticket (line 351-353), and the
portfolio quantity re-read on line 360 after the order.  The second
component of the result is the quantity requested from `market_order`
(`none` when no order is placed). -/
def handle_buy_signal (s : StratState) (current_price current_time : ℚ)
    (current_holdings : ℚ) (current_supertrend : Option ℚ) (equity : ℚ)
    (order_ok : Bool) (post_holdings : ℚ) : StratState × Option ℚ :=
  if current_holdings > 0 then (s, none)
  else if pyTruthy current_supertrend = false then (s, none)
  else
    let stop_price := current_supertrend.getD 0
    let position_size := calculate_position_size s.risk_per_trade
        s.max_position_size current_price stop_price equity
    if position_size > 0 then
      if order_ok then
        ({ s with
            daily_trade_count := s.daily_trade_count + 1
            last_trade_time := some current_time
            total_trades := s.total_trades + 1
            position_size := post_holdings
            entry_price := some current_price
            stop_loss_level := some stop_price
            position_entry_time := some current_time },
         some position_size)
      else (s, some position_size)
    else (s, none)

/-- `_update_stop_loss(current_price)` (main.py lines 418-431).  The
`current_price` argument is unused by the source body and kept for
fidelity.  `is_long` is `self.portfolio[self.btc_symbol].is_long`,
`signal` is `self.supertrend.signal`, and `current_supertrend` is
`self.supertrend.get_current_supertrend()`. -/
def update_stop_loss (s : StratState) (current_price : ℚ) (is_long : Bool)
    (signal : ℤ) (current_supertrend : Option ℚ) : StratState :=
  if is_long && pyTruthy s.stop_loss_level && (signal == 1) then
    if pyTruthy current_supertrend
        && decide (s.stop_loss_level.getD 0 < current_supertrend.getD 0) then
      { s with stop_loss_level := current_supertrend }
    else s
  else s

/-- `on_error(error_code, error_message)` (main.py lines 556-566).  Code
2076 is insufficient buying power, code 200 is market closed; `time` is
`self.time` in minutes, and `timedelta(minutes=5)` becomes `+ 5`. -/
def on_error (s : StratState) (time : ℚ) (error_code : ℤ) : StratState :=
  if error_code = 2076 then
    { s with risk_per_trade := s.risk_per_trade * (8 / 10) }
  else if error_code = 200 then s
  else { s with pause_trading_until := some (time + 5) }

/-- The pause gate at the top of `on_data` (main.py lines 148-149): the bar
is skipped when `self.pause_trading_until` is truthy and the current time is
strictly before it. -/
def pause_gate_skips (pause_trading_until : Option ℚ) (time : ℚ) : Bool :=
  pyTruthy pause_trading_until && decide (time < pause_trading_until.getD 0)

/-- Daily-reset state of the strategy: `daily_reset_time` (initialize line
91) and the lazily created `_current_reset_date` attribute (absent until
first written, modelled as an `Option`), plus the counter and equity
snapshot that a reset writes.  Calendar dates are modelled as naturals: the
source compares zero-padded `%Y-%m-%d` strings, whose lexicographic order
agrees with chronological order, and only the date of the stored
`daily_reset_time` is ever used. -/
structure DailyState where
  daily_reset_time : Option ℕ
  current_reset_date : Option ℕ
  daily_trade_count : ℕ
  start_of_day_equity : ℚ
deriving Repr, DecidableEq

/-- Daily-reset state right after `initialize`. -/
def initDaily : DailyState :=
  { daily_reset_time := none
    current_reset_date := none
    daily_trade_count := 0
    start_of_day_equity := 100000 }

/-- `_check_daily_reset(current_time)` (main.py lines 251-276).  `equity` is
`self.portfolio.total_portfolio_value`.  The Boolean component is
instrumentation only: it records whether the reset branch of lines 271-276
(the one that zeroes the counter and emits the Daily Reset log line)
executed; the `DailyState` component mirrors exactly the mutations of the
source.  Note that the source never updates `daily_reset_time` after the
first call. -/
def check_daily_reset (s : DailyState) (current_day : ℕ) (equity : ℚ) :
    DailyState × Bool :=
  match s.daily_reset_time with
  | none =>
      ({ s with daily_reset_time := some current_day, start_of_day_equity := equity },
       false)
  | some rt =>
      if rt < current_day then
        let crd := s.current_reset_date.getD rt
        if current_day ≠ crd then
          ({ s with
              daily_trade_count := 0
              start_of_day_equity := equity
              current_reset_date := some current_day },
           true)
        else ({ s with current_reset_date := some crd }, false)
      else (s, false)

/-- Feed a list of bar dates through `_check_daily_reset` and record, per
bar, whether the reset branch fired.  The equity argument does not influence
the control flow and is passed as 0. -/
def runDailyLog (s : DailyState) : List ℕ → List Bool
  | [] => []
  | d :: ds =>
      let r := check_daily_reset s d 0
      r.2 :: runDailyLog r.1 ds

/-- Reference log: a reset is expected exactly on the bars whose date
strictly exceeds every date seen so far. -/
def expectedLog (e : ℕ) : List ℕ → List Bool
  | [] => []
  | d :: ds => decide (e < d) :: expectedLog (max e d) ds

/-- Number of bars carrying date `d` on which the reset branch fired,
reading the feed and the fired-log in lockstep. -/
def countFired (days : List ℕ) (log : List Bool) (d : ℕ) : ℕ :=
  ((days.zip log).filter (fun q => q.1 == d && q.2)).length

/-! ## Helper lemmas -/

theorem calculate_atr_eq_lt (s : SuperTrendIndicator) (tr : ℚ)
    (h : (dequeAppend s.period s.atr_values tr).length < s.period) :
    s.calculate_atr tr =
      (listMean (dequeAppend s.period s.atr_values tr),
       { s with atr_values := dequeAppend s.period s.atr_values tr }) := by
  simp [SuperTrendIndicator.calculate_atr, h]

theorem calculate_atr_eq_ge (s : SuperTrendIndicator) (tr : ℚ)
    (h : ¬ (dequeAppend s.period s.atr_values tr).length < s.period) :
    s.calculate_atr tr =
      ((s.prev_atr.getD (listMean (dequeAppend s.period s.atr_values tr)) *
          ((s.period : ℚ) - 1) + tr) / (s.period : ℚ),
       { s with
          atr_values := dequeAppend s.period s.atr_values tr
          prev_atr := some ((s.prev_atr.getD
              (listMean (dequeAppend s.period s.atr_values tr)) *
            ((s.period : ℚ) - 1) + tr) / (s.period : ℚ)) }) := by
  simp [SuperTrendIndicator.calculate_atr, h]

theorem dequeAppend_of_room (p : ℕ) (l : List ℚ) (x : ℚ) (h : l.length + 1 ≤ p) :
    dequeAppend p l x = l ++ [x] := by
  simp only [dequeAppend, List.length_append, List.length_cons, List.length_nil]
  rw [if_neg (by omega)]

theorem length_dequeAppend_full (p : ℕ) (l : List ℚ) (x : ℚ) (hp : 1 ≤ p)
    (h : p ≤ l.length) : (dequeAppend p l x).length = p := by
  simp only [dequeAppend, List.length_append, List.length_cons, List.length_nil]
  rw [if_pos (by omega)]
  simp
  omega

theorem take_append_getD (trs : List ℚ) (k : ℕ) (hk : k < trs.length) :
    trs.take k ++ [trs.getD k 0] = trs.take (k + 1) := by
  rw [List.getD_eq_getElem trs 0 hk]
  exact List.take_concat_get' trs k hk

/-- State invariant of the ATR recursion: while fewer than `period`
observations have arrived the deque holds exactly the observed True Ranges
and the Wilder seed is absent; from observation `period` on the deque stays
full and `prev_atr` carries the previous output. -/
theorem atr_state_inv (p : ℕ) (trs : List ℚ) (hp : 1 ≤ p) :
    ∀ k, k ≤ trs.length →
      (atrStateAfter p trs k).period = p ∧
      (k < p → (atrStateAfter p trs k).atr_values = trs.take k ∧
               (atrStateAfter p trs k).prev_atr = none) ∧
      (p ≤ k → p ≤ (atrStateAfter p trs k).atr_values.length ∧
               (atrStateAfter p trs k).prev_atr = some (atrOut p trs (k - 1))) := by
  intro k
  induction k with
  | zero =>
    intro _
    exact ⟨rfl, fun _ => ⟨rfl, rfl⟩, fun h => absurd h (by omega)⟩
  | succ k ih =>
    intro hk1
    have hk : k ≤ trs.length := Nat.le_of_succ_le hk1
    have hklt : k < trs.length := hk1
    obtain ⟨hper, hlt, hge⟩ := ih hk
    set S := atrStateAfter p trs k with hS
    have hstep : atrStateAfter p trs (k + 1) = (S.calculate_atr (trs.getD k 0)).2 := rfl
    have hout : atrOut p trs k = (S.calculate_atr (trs.getD k 0)).1 := rfl
    by_cases hcase : k < p
    · -- deque still growing (or just filling)
      obtain ⟨hvals, hprev⟩ := hlt hcase
      have hroom : S.atr_values.length + 1 ≤ p := by
        rw [hvals, List.length_take, Nat.min_eq_left hk]
        omega
      have hdeq : dequeAppend S.period S.atr_values (trs.getD k 0) = trs.take (k + 1) := by
        rw [hper, dequeAppend_of_room p _ _ hroom, hvals, take_append_getD trs k hklt]
      have hdeqlen : (dequeAppend S.period S.atr_values (trs.getD k 0)).length = k + 1 := by
        rw [hdeq, List.length_take, Nat.min_eq_left hk1]
      by_cases hfill : k + 1 < p
      · -- still in the plain-mean phase
        have hbranch : (dequeAppend S.period S.atr_values (trs.getD k 0)).length < S.period := by
          rw [hdeqlen, hper]; exact hfill
        rw [hstep, calculate_atr_eq_lt S _ hbranch]
        refine ⟨hper, fun _ => ⟨by simpa using hdeq, by simpa using hprev⟩,
          fun h => absurd h (by omega)⟩
      · -- the deque just reached capacity: Wilder branch seeds from the mean
        have hbranch : ¬ (dequeAppend S.period S.atr_values (trs.getD k 0)).length < S.period := by
          rw [hdeqlen, hper]; omega
        rw [hstep, calculate_atr_eq_ge S _ hbranch]
        refine ⟨hper, fun h => absurd h (by omega), fun _ => ?_⟩
        constructor
        · simp only
          rw [hdeqlen]
          omega
        · simp only [Nat.add_sub_cancel]
          rw [hout, calculate_atr_eq_ge S _ hbranch]
    · -- saturated phase: deque full, Wilder recursion
      have hgek : p ≤ k := by omega
      obtain ⟨hlen, hprev⟩ := hge hgek
      have hdeqlen : (dequeAppend S.period S.atr_values (trs.getD k 0)).length = p := by
        rw [hper]
        exact length_dequeAppend_full p _ _ hp (by rw [← hper] at hlen ⊢; exact hlen)
      have hbranch : ¬ (dequeAppend S.period S.atr_values (trs.getD k 0)).length < S.period := by
        rw [hdeqlen, hper]; omega
      rw [hstep, calculate_atr_eq_ge S _ hbranch]
      refine ⟨hper, fun h => absurd h (by omega), fun _ => ?_⟩
      constructor
      · simp only
        rw [hdeqlen]
      · simp only [Nat.add_sub_cancel]
        rw [hout, calculate_atr_eq_ge S _ hbranch]

/-! ## Claim C1 -/

/-- C1 (amended): for every True-Range sequence, the ATR equals the plain
arithmetic mean of the observed True Ranges only on the first `period - 1`
observations; on the observation numbered exactly `period` the code seeds
Wilder smoothing with the mean `m` of the first `period` True Ranges and
returns `(m * (period - 1) + TR) / period`; on every later observation it
returns `(previousATR * (period - 1) + TR) / period`. -/
theorem C1_atr_amended (p : ℕ) (trs : List ℚ) (k : ℕ)
    (hp : 1 ≤ p) (hk : k < trs.length) :
    (k + 1 < p → atrOut p trs k = listMean (trs.take (k + 1))) ∧
    (k + 1 = p → atrOut p trs k =
      (listMean (trs.take p) * ((p : ℚ) - 1) + trs.getD k 0) / (p : ℚ)) ∧
    (p < k + 1 → atrOut p trs k =
      (atrOut p trs (k - 1) * ((p : ℚ) - 1) + trs.getD k 0) / (p : ℚ)) := by
  obtain ⟨hper, hlt, hge⟩ := atr_state_inv p trs hp k (Nat.le_of_lt hk)
  set S := atrStateAfter p trs k with hS
  have hout : atrOut p trs k = (S.calculate_atr (trs.getD k 0)).1 := rfl
  refine ⟨fun hfill => ?_, fun hexact => ?_, fun hsat => ?_⟩
  · obtain ⟨hvals, hprev⟩ := hlt (by omega)
    have hroom : S.atr_values.length + 1 ≤ p := by
      rw [hvals, List.length_take, Nat.min_eq_left (Nat.le_of_lt hk)]
      omega
    have hdeq : dequeAppend S.period S.atr_values (trs.getD k 0) = trs.take (k + 1) := by
      rw [hper, dequeAppend_of_room p _ _ hroom, hvals, take_append_getD trs k hk]
    have hbranch : (dequeAppend S.period S.atr_values (trs.getD k 0)).length < S.period := by
      rw [hdeq, List.length_take, Nat.min_eq_left hk, hper]
      exact hfill
    rw [hout, calculate_atr_eq_lt S _ hbranch]
    simp only
    rw [hdeq]
  · obtain ⟨hvals, hprev⟩ := hlt (by omega)
    have hroom : S.atr_values.length + 1 ≤ p := by
      rw [hvals, List.length_take, Nat.min_eq_left (Nat.le_of_lt hk)]
      omega
    have hdeq : dequeAppend S.period S.atr_values (trs.getD k 0) = trs.take (k + 1) := by
      rw [hper, dequeAppend_of_room p _ _ hroom, hvals, take_append_getD trs k hk]
    have hbranch : ¬ (dequeAppend S.period S.atr_values (trs.getD k 0)).length < S.period := by
      rw [hdeq, List.length_take, Nat.min_eq_left hk, hper]
      omega
    rw [hout, calculate_atr_eq_ge S _ hbranch]
    simp only
    rw [hprev, hdeq, hexact, hper]
    simp [Option.getD]
  · obtain ⟨hlen, hprev⟩ := hge (by omega)
    have hbranch : ¬ (dequeAppend S.period S.atr_values (trs.getD k 0)).length < S.period := by
      rw [hper]
      rw [length_dequeAppend_full p _ _ hp (by rw [← hper] at hlen ⊢; exact hlen)]
      omega
    rw [hout, calculate_atr_eq_ge S _ hbranch]
    simp only
    rw [hprev, hper]
    simp [Option.getD]

/-- C1 counterexample: with `period = 2` and True Ranges `2, 4`, the second
observation (the observation numbered exactly `period`) produces an ATR of
`7/2`, not the plain arithmetic mean `3` of the True Ranges observed so far,
refuting the claim that the mean is used through observation `period`. -/
theorem C1_counterexample :
    atrOut 2 [2, 4] 1 = 7 / 2 ∧ listMean (List.take 2 [2, 4]) = 3 ∧ (7 / 2 : ℚ) ≠ 3 := by
  refine ⟨?_, ?_, by norm_num⟩
  · norm_num [atrOut, atrStateAfter, SuperTrendIndicator.calculate_atr,
      SuperTrendIndicator.init, dequeAppend, listMean]
  · norm_num [listMean]

/-- Witness for the amended C1 theorem at `period = 2`, True Ranges
`2, 4, 6`, third observation. -/
theorem C1_witness :
    (1 ≤ 2 ∧ 2 < ([2, 4, 6] : List ℚ).length) ∧
    (2 < 2 + 1 → atrOut 2 [2, 4, 6] 2 =
      (atrOut 2 [2, 4, 6] 1 * ((2 : ℚ) - 1) + ([2, 4, 6] : List ℚ).getD 2 0) / (2 : ℚ)) :=
  ⟨⟨by norm_num, by norm_num⟩,
   (C1_atr_amended 2 [2, 4, 6] 2 (by norm_num) (by norm_num)).2.2⟩

/-! ## Claim C2 -/

/-- C2: after the first bar (both final bands present), the final upper band
produced by `update` can only exceed its previous value when the close is
strictly above the previous final upper band, and the final lower band can
only fall below its previous value when the close is strictly below the
previous final lower band. -/
theorem C2_band_continuity (s : SuperTrendIndicator) (high low close u l : ℚ)
    (hb : s.final_bands = some (u, l)) :
    ∃ u2 l2, (s.update high low close).1.final_bands = some (u2, l2) ∧
      (u < u2 → u < close) ∧ (l2 < l → close < l) := by
  simp only [SuperTrendIndicator.update, hb]
  refine ⟨_, _, rfl, ?_, ?_⟩
  · by_cases hc : (high + low) / 2 + s.multiplier *
        (s.calculate_atr (calculate_true_range high low s.prev_close)).1 < u ∨ close > u
    · rw [if_pos hc]
      intro hlt
      rcases hc with hc | hc
      · exact absurd hlt (not_lt.mpr (le_of_lt hc))
      · exact hc
    · rw [if_neg hc]
      intro hlt
      exact absurd hlt (lt_irrefl u)
  · by_cases hc : (high + low) / 2 - s.multiplier *
        (s.calculate_atr (calculate_true_range high low s.prev_close)).1 > l ∨ close < l
    · rw [if_pos hc]
      intro hlt
      rcases hc with hc | hc
      · exact absurd hlt (not_lt.mpr (le_of_lt hc))
      · exact hc
    · rw [if_neg hc]
      intro hlt
      exact absurd hlt (lt_irrefl l)

/-- Witness for C2 at a concrete indicator state with bands `(10, 5)` and a
bar with close `11`. -/
theorem C2_witness :
    (SuperTrendIndicator.mk 10 3 [] none (some (10, 5)) none 0 0 false 5
        (some 9)).final_bands = some (10, 5) ∧
    ∃ u2 l2, ((SuperTrendIndicator.mk 10 3 [] none (some (10, 5)) none 0 0 false 5
        (some 9)).update 12 8 11).1.final_bands = some (u2, l2) ∧
      ((10 : ℚ) < u2 → (10 : ℚ) < 11) ∧ (l2 < 5 → (11 : ℚ) < 5) :=
  ⟨rfl, C2_band_continuity _ 12 8 11 10 5 rfl⟩

/-! ## Claim C3 -/

/-- C3: `is_buy_signal` is true exactly when the indicator is ready, the
current signal is Up (1) and the previous signal is Down (-1); symmetrically
for `is_sell_signal`; a state whose signal equals its previous signal
reports no transition; and `update` stores the previous signal, so on the
bar after any bar the previous-signal field holds the signal of that
earlier bar. -/
theorem C3_signal_transitions (s : SuperTrendIndicator) :
    (s.is_buy_signal = true ↔ s.is_ready = true ∧ s.signal = 1 ∧ s.prev_signal = -1) ∧
    (s.is_sell_signal = true ↔ s.is_ready = true ∧ s.signal = -1 ∧ s.prev_signal = 1) ∧
    (s.signal = s.prev_signal → s.is_buy_signal = false ∧ s.is_sell_signal = false) ∧
    (∀ high low close, ((s.update high low close).1).prev_signal = s.signal) := by
  refine ⟨?_, ?_, ?_, fun high low close => rfl⟩
  · simp [SuperTrendIndicator.is_buy_signal]
    tauto
  · simp [SuperTrendIndicator.is_sell_signal]
    tauto
  · intro h
    constructor
    · simp [SuperTrendIndicator.is_buy_signal, h]
      intro h1 h2
      omega
    · simp [SuperTrendIndicator.is_sell_signal, h]
      intro h1 h2
      omega

/-! ## Claim C9 -/

/-- C9: whenever a bar leaves the indicator not ready,
`get_current_supertrend` returns `none` and `get_current_signal` returns 0,
although `update` itself returned a defined trend level and a nonzero
(plus or minus one) signal for that same bar. -/
theorem C9_not_ready_getters (s : SuperTrendIndicator) (high low close : ℚ)
    (h : (s.update high low close).1.is_ready = false) :
    (s.update high low close).1.get_current_supertrend = none ∧
    (s.update high low close).1.get_current_signal = 0 ∧
    (∃ v, (s.update high low close).2.1 = some v) ∧
    (s.update high low close).2.2 ≠ 0 := by
  refine ⟨?_, ?_, ⟨_, rfl⟩, ?_⟩
  · simp [SuperTrendIndicator.get_current_supertrend, h]
  · simp [SuperTrendIndicator.get_current_signal, h]
  · show (if close ≤ _ then (-1 : ℤ) else 1) ≠ 0
    split <;> decide

/-- Witness for C9: a fresh period-10 indicator after one bar is not ready,
its getters return the defaults, yet `update` returned a trend level and a
nonzero signal. -/
theorem C9_witness :
    ((SuperTrendIndicator.init 10 3).update 2 1 1).1.is_ready = false ∧
    (((SuperTrendIndicator.init 10 3).update 2 1 1).1.get_current_supertrend = none ∧
     ((SuperTrendIndicator.init 10 3).update 2 1 1).1.get_current_signal = 0 ∧
     (∃ v, ((SuperTrendIndicator.init 10 3).update 2 1 1).2.1 = some v) ∧
     ((SuperTrendIndicator.init 10 3).update 2 1 1).2.2 ≠ 0) :=
  ⟨rfl, C9_not_ready_getters _ 2 1 1 rfl⟩

/-! ## Claim C4 -/

/-- C4: a buy-transition handled while current holdings are already positive
changes no controller state and places no order: `_handle_buy_signal`
returns on its first check, leaving every field (daily trade count, entry
price, stop level, last-trade time, and the rest) untouched, which is how
the at-most-one-open-position invariant is enforced. -/
theorem C4_buy_noop_when_long (s : StratState) (current_price current_time : ℚ)
    (current_holdings : ℚ) (current_supertrend : Option ℚ) (equity : ℚ)
    (order_ok : Bool) (post_holdings : ℚ)
    (h : 0 < current_holdings) :
    handle_buy_signal s current_price current_time current_holdings
      current_supertrend equity order_ok post_holdings = (s, none) := by
  simp [handle_buy_signal, h]

/-- Witness for C4 at the initial controller state with holdings 1. -/
theorem C4_witness :
    (0 : ℚ) < 1 ∧
    handle_buy_signal initStrat 100 0 1 (some 90) 100000 true 1 = (initStrat, none) :=
  ⟨by norm_num, C4_buy_noop_when_long initStrat 100 0 1 (some 90) 100000 true 1 (by norm_num)⟩

/-! ## Claim C5 -/

/-- C5: while long with a stored stop level and the indicator signal still
Up, `_update_stop_loss` raises the stored stop to the current trend level
whenever that level is strictly higher (both being nonzero, the Python
truthiness of the guards); and in every case the stored stop level never
decreases. -/
theorem C5_trailing_stop (s : StratState) (current_price : ℚ) (is_long : Bool)
    (signal : ℤ) (current_supertrend : Option ℚ) (sl : ℚ)
    (hs : s.stop_loss_level = some sl) :
    (∀ cs, is_long = true → signal = 1 → current_supertrend = some cs →
      sl ≠ 0 → cs ≠ 0 → sl < cs →
      (update_stop_loss s current_price is_long signal
        current_supertrend).stop_loss_level = some cs) ∧
    (∃ sl2, (update_stop_loss s current_price is_long signal
        current_supertrend).stop_loss_level = some sl2 ∧ sl ≤ sl2) := by
  constructor
  · intro cs hl hsig hcs hsl0 hcs0 hlt
    subst hl hsig hcs
    simp [update_stop_loss, pyTruthy, hs, hsl0, hcs0, hlt]
  · unfold update_stop_loss
    by_cases h1 : (is_long && pyTruthy s.stop_loss_level && (signal == 1)) = true
    · rw [if_pos h1]
      by_cases h2 : (pyTruthy current_supertrend
          && decide (s.stop_loss_level.getD 0 < current_supertrend.getD 0)) = true
      · rw [if_pos h2]
        rcases Bool.and_eq_true_iff.mp h2 with ⟨ht, hd⟩
        match hcs : current_supertrend with
        | some cs =>
          refine ⟨cs, rfl, ?_⟩
          have hlt := of_decide_eq_true hd
          rw [hs] at hlt
          simp at hlt
          exact le_of_lt hlt
        | none => simp [pyTruthy, hcs] at ht
      · rw [if_neg h2]
        exact ⟨sl, hs, le_refl sl⟩
    · rw [if_neg h1]
      exact ⟨sl, hs, le_refl sl⟩

/-- Witness for C5: stop 50, trend level 60, long and signal Up, so the
stored stop rises to 60. -/
theorem C5_witness :
    (StratState.mk 0 none 0 0 none (some 50) none (2 / 100) (1 / 10) none).stop_loss_level
        = some 50 ∧
    (update_stop_loss (StratState.mk 0 none 0 0 none (some 50) none (2 / 100) (1 / 10) none)
        100 true 1 (some 60)).stop_loss_level = some 60 :=
  ⟨rfl, (C5_trailing_stop _ 100 true 1 (some 60) 50 rfl).1 60 rfl rfl rfl
    (by norm_num) (by norm_num) (by norm_num)⟩

/-! ## Claim C7 -/

/-- C7: with risk fraction 0.02 and max allocation 0.10, entry 100, stop 95
and equity 100000, `calculate_position_size` returns exactly 100, the
minimum of 2000/5 = 400 (risk-based) and 10000/100 = 100 (allocation cap),
untouched by the $100 minimum-notional floor. -/
theorem C7_sizing_scenario :
    calculate_position_size (2 / 100) (1 / 10) 100 95 100000 = 100 := by
  norm_num [calculate_position_size, min_def]

/-! ## Claim C10 -/

/-- C10: there are inputs with positive entry and stop prices for which
`calculate_position_size` returns strictly more than
`accountEquity * maxAllocationFraction / entryPrice`: the $100
minimum-notional floor is applied after the allocation cap and overrides it
(entry 100, stop 95, equity 500 gives size 1 against a cap of 0.5). -/
theorem C10_floor_overrides_cap :
    ∃ entry_price stop_price account_equity risk maxalloc : ℚ,
      0 < entry_price ∧ 0 < stop_price ∧
      calculate_position_size risk maxalloc entry_price stop_price account_equity >
        account_equity * maxalloc / entry_price := by
  refine ⟨100, 95, 500, 2 / 100, 1 / 10, by norm_num, by norm_num, ?_⟩
  norm_num [calculate_position_size, min_def]

/-! ## Claim C8 -/

/-- C8 counterexample: error code 200 (market closed) is not the
insufficient-funds code, yet `on_error` neither sets a pause-until timestamp
nor changes anything else, refuting the claim that every non-funds
execution error sets a pause. -/
theorem C8_counterexample :
    on_error initStrat 0 200 = initStrat ∧
    (on_error initStrat 0 200).pause_trading_until = none ∧ (200 : ℤ) ≠ 2076 := by
  refine ⟨?_, ?_, by decide⟩ <;> norm_num [on_error, initStrat]

/-- C8 (amended): on insufficient funds (code 2076) the risk fraction is
multiplied by 0.8; on market closed (code 200) the state is unchanged apart
from a warning log; on any other error code a pause-until timestamp of the
current time plus five minutes is set; and while a nonzero pause timestamp
lies strictly in the future the `on_data` gate skips the bar, ignoring
signals. -/
theorem C8_error_handling_amended (s : StratState) (time : ℚ) (error_code : ℤ) :
    (error_code = 2076 →
      on_error s time error_code =
        { s with risk_per_trade := s.risk_per_trade * (8 / 10) }) ∧
    (error_code = 200 → on_error s time error_code = s) ∧
    (error_code ≠ 2076 → error_code ≠ 200 →
      on_error s time error_code = { s with pause_trading_until := some (time + 5) }) ∧
    (∀ p, (on_error s time error_code).pause_trading_until = some p → p ≠ 0 →
      time < p →
      pause_gate_skips (on_error s time error_code).pause_trading_until time = true) := by
  refine ⟨fun h => by norm_num [on_error, h], fun h => by norm_num [on_error, h],
    fun h1 h2 => by simp [on_error, h1, h2], ?_⟩
  intro p hp hp0 htp
  simp [pause_gate_skips, pyTruthy, hp, hp0, htp]

/-- Witness for the amended C8 theorem at error code 999. -/
theorem C8_witness :
    ((999 : ℤ) ≠ 2076 ∧ (999 : ℤ) ≠ 200) ∧
    on_error initStrat 0 999 = { initStrat with pause_trading_until := some (0 + 5) } :=
  ⟨⟨by decide, by decide⟩,
   (C8_error_handling_amended initStrat 0 999).2.2.1 (by decide) (by decide)⟩

/-! ## Claim C6 -/

/-- Splitting the per-bar fired count at the head of the feed. -/
theorem countFired_cons (d1 : ℕ) (ds : List ℕ) (b : Bool) (log : List Bool) (d : ℕ) :
    countFired (d1 :: ds) (b :: log) d =
      (if d1 = d ∧ b = true then 1 else 0) + countFired ds log d := by
  simp only [countFired, List.zip_cons_cons, List.filter_cons]
  by_cases h : (d1 == d && b) = true
  · rcases Bool.and_eq_true_iff.mp h with ⟨h1, h2⟩
    rw [if_pos h]
    simp [beq_iff_eq.mp h1, h2, Nat.add_comm]
  · rw [if_neg h]
    have hnot : ¬ (d1 = d ∧ b = true) := by
      rintro ⟨h1, h2⟩
      exact h (by simp [h1, h2])
    simp [hnot]

/-- Unfolding `_check_daily_reset` once `daily_reset_time` is stored. -/
theorem check_daily_reset_some (s : DailyState) (d rt : ℕ) (q : ℚ)
    (h : s.daily_reset_time = some rt) :
    check_daily_reset s d q =
      if rt < d then
        if d ≠ s.current_reset_date.getD rt then
          ({ s with daily_trade_count := 0, start_of_day_equity := q,
                    current_reset_date := some d }, true)
        else ({ s with current_reset_date := some (s.current_reset_date.getD rt) }, false)
      else (s, false) := by
  simp [check_daily_reset, h]

/-- Characterization of the reset log from any mid-stream state: with the
first day `d0` stored and `e` the effective last reset date (equal to `d0`
while no reset has fired), a monotone feed all of whose days are at least
`e` produces a reset exactly on the bars whose day strictly exceeds every
day seen so far. -/
theorem runDailyLog_eq_expectedLog (ds : List ℕ) :
    ∀ (s : DailyState) (d0 e : ℕ),
      s.daily_reset_time = some d0 →
      (s.current_reset_date = none ∧ e = d0 ∨ s.current_reset_date = some e ∧ d0 < e) →
      List.Sorted (· ≤ ·) ds → (∀ x ∈ ds, e ≤ x) →
      runDailyLog s ds = expectedLog e ds := by
  induction ds with
  | nil =>
    intro s d0 e _ _ _ _
    rfl
  | cons d ds ih =>
    intro s d0 e hrt hcrd hsort hge
    have hed : e ≤ d := hge d (List.mem_cons_self d ds)
    have hsort2 : List.Sorted (· ≤ ·) ds := hsort.of_cons
    have hdle : ∀ x ∈ ds, d ≤ x := fun x hx => (List.sorted_cons.mp hsort).1 x hx
    rw [runDailyLog, check_daily_reset_some s d d0 0 hrt, expectedLog]
    rcases hcrd with ⟨hnone, he⟩ | ⟨hsome, hlt⟩
    · rw [hnone]
      simp only [Option.getD_none]
      by_cases hd : d0 < d
      · rw [if_pos hd, if_pos (show d ≠ d0 by omega)]
        congr 1
        · exact (decide_eq_true (show e < d by omega)).symm
        · rw [max_eq_right (show e ≤ d by omega)]
          exact ih _ d0 d hrt (Or.inr ⟨rfl, hd⟩) hsort2 hdle
      · rw [if_neg hd]
        congr 1
        · exact (decide_eq_false (show ¬ e < d by omega)).symm
        · rw [max_eq_left (show d ≤ e by omega)]
          exact ih s d0 e hrt (Or.inl ⟨hnone, he⟩) hsort2
            (fun x hx => le_trans hed (hdle x hx))
    · rw [hsome]
      simp only [Option.getD_some]
      rw [if_pos (show d0 < d by omega)]
      by_cases hde : d = e
      · rw [if_neg (show ¬ d ≠ e by omega)]
        congr 1
        · exact (decide_eq_false (show ¬ e < d by omega)).symm
        · rw [max_eq_left (show d ≤ e by omega)]
          exact ih _ d0 e hrt (Or.inr ⟨rfl, hlt⟩) hsort2
            (fun x hx => le_trans (show e ≤ d by omega) (hdle x hx))
      · rw [if_pos hde]
        congr 1
        · exact (decide_eq_true (show e < d by omega)).symm
        · rw [max_eq_right hed]
          exact ih _ d0 d hrt (Or.inr ⟨rfl, by omega⟩) hsort2 hdle

/-- Counting resets in the reference log: a day `d` of a monotone feed whose
days all reach at least `e` fires exactly once when `e < d`, else never. -/
theorem countFired_expectedLog (ds : List ℕ) :
    ∀ (e d : ℕ), List.Sorted (· ≤ ·) ds → (∀ x ∈ ds, e ≤ x) →
      countFired ds (expectedLog e ds) d = if d ∈ ds ∧ e < d then 1 else 0 := by
  induction ds with
  | nil =>
    intro e d _ _
    simp [countFired, expectedLog]
  | cons d1 ds ih =>
    intro e d hsort hge
    have he1 : e ≤ d1 := hge d1 (List.mem_cons_self d1 ds)
    have hd1le : ∀ x ∈ ds, d1 ≤ x := fun x hx => (List.sorted_cons.mp hsort).1 x hx
    rw [expectedLog, countFired_cons,
      ih (max e d1) d hsort.of_cons
        (fun x hx => max_le (le_trans he1 (hd1le x hx)) (hd1le x hx))]
    by_cases hd : d = d1
    · subst hd
      by_cases hlt : e < d
      · rw [if_pos ⟨rfl, decide_eq_true hlt⟩,
          if_neg (by rintro ⟨hmem, hmax⟩; exact absurd (le_max_right e d) (not_le.mpr hmax)),
          if_pos ⟨List.mem_cons_self d ds, hlt⟩]
      · rw [if_neg (by rintro ⟨_, hdec⟩; exact hlt (of_decide_eq_true hdec)),
          if_neg (by rintro ⟨hmem, hmax⟩; exact hlt (lt_of_le_of_lt (le_max_left e d) hmax)),
          if_neg (by rintro ⟨_, hlt2⟩; exact hlt hlt2)]
    · rw [if_neg (by rintro ⟨h1, _⟩; exact hd h1.symm)]
      by_cases hmem : d ∈ ds
      · have hd1d : d1 ≤ d := hd1le d hmem
        by_cases hlt : e < d
        · rw [if_pos ⟨hmem, max_lt (by omega) (by omega)⟩,
            if_pos ⟨List.mem_cons_of_mem d1 hmem, hlt⟩]
        · rw [if_neg (by rintro ⟨_, hmax⟩; exact hlt (lt_of_le_of_lt (le_max_left e d1) hmax)),
            if_neg (by rintro ⟨_, hlt2⟩; exact hlt hlt2)]
      · rw [if_neg (by rintro ⟨hmem2, _⟩; exact hmem hmem2),
          if_neg (by
            rintro ⟨hmem2, _⟩
            rcases List.mem_cons.mp hmem2 with h | h
            · exact hd h
            · exact hmem h)]

/-- C6 (amended): for a monotone bar feed, the reset branch of
`_check_daily_reset` zeroes the daily trade counter exactly once per
distinct calendar date other than the first date of the feed, however many
bars share each date; the first date never fires a reset, because the first
invocation only records the stored day and the source never updates
`daily_reset_time` afterwards. -/
theorem C6_daily_reset_amended (d0 : ℕ) (ds : List ℕ) (d : ℕ)
    (hsort : List.Sorted (· ≤ ·) (d0 :: ds)) (hmem : d ∈ d0 :: ds) :
    countFired (d0 :: ds) (runDailyLog initDaily (d0 :: ds)) d =
      if d = d0 then 0 else 1 := by
  have hd0le : ∀ x ∈ ds, d0 ≤ x := fun x hx => (List.sorted_cons.mp hsort).1 x hx
  have hfirst : check_daily_reset initDaily d0 0 =
      ({ initDaily with daily_reset_time := some d0, start_of_day_equity := 0 }, false) := rfl
  have hrun : runDailyLog initDaily (d0 :: ds) = false :: expectedLog d0 ds := by
    rw [runDailyLog, hfirst]
    congr 1
    exact runDailyLog_eq_expectedLog ds _ d0 d0 rfl (Or.inl ⟨rfl, rfl⟩)
      hsort.of_cons hd0le
  rw [hrun, countFired_cons,
    countFired_expectedLog ds d0 d hsort.of_cons hd0le,
    if_neg (by rintro ⟨_, h⟩; cases h)]
  by_cases hd : d = d0
  · rw [if_neg (by rintro ⟨_, hlt⟩; omega), if_pos hd]
  · have hdmem : d ∈ ds := by
      rcases List.mem_cons.mp hmem with h | h
      · exact absurd h hd
      · exact h
    rw [if_pos ⟨hdmem, lt_of_le_of_ne (hd0le d hdmem) (fun h => hd h.symm)⟩, if_neg hd]

/-- C6 counterexample: a feed of two bars on the same single date 5 fires no
reset at all for that date, although the claim demands exactly one reset per
distinct calendar date present in the feed. -/
theorem C6_counterexample :
    countFired [5, 5] (runDailyLog initDaily [5, 5]) 5 = 0 ∧
    countFired [5, 5] (runDailyLog initDaily [5, 5]) 5 ≠ 1 := by
  refine ⟨rfl, ?_⟩
  intro h
  rw [show countFired [5, 5] (runDailyLog initDaily [5, 5]) 5 = 0 from rfl] at h
  exact absurd h (by omega)

/-- Witness for the amended C6 theorem: feed with dates 3, 4, 4; date 4 is
not the first date and fires exactly one reset. -/
theorem C6_witness :
    (List.Sorted (· ≤ ·) [3, 4, 4] ∧ 4 ∈ [3, 4, 4]) ∧
    countFired [3, 4, 4] (runDailyLog initDaily [3, 4, 4]) 4 = if 4 = 3 then 0 else 1 :=
  ⟨⟨by decide, by decide⟩, C6_daily_reset_amended 3 [4, 4] 4 (by decide) (by decide)⟩

/-- Witness for C3 at a concrete ready state whose signal equals its
previous signal: no transition is reported. -/
theorem C3_witness :
    (SuperTrendIndicator.mk 10 3 [] none none none 1 1 true 20 none).signal =
        (SuperTrendIndicator.mk 10 3 [] none none none 1 1 true 20 none).prev_signal ∧
    ((SuperTrendIndicator.mk 10 3 [] none none none 1 1 true 20 none).is_buy_signal = false ∧
     (SuperTrendIndicator.mk 10 3 [] none none none 1 1 true 20 none).is_sell_signal = false) :=
  ⟨rfl, (C3_signal_transitions _).2.2.1 rfl⟩
